import Mathlib

/-!
Verification of the plan-and-dispatch orchestration engine of the AgenticAI
repository, shallowly embedded in Lean 4.

The embedding follows the Python sources:
  * `app/ai_core/agents/router.py` — the routing state machine, the heuristic
    capability classifier with its TTL cache, the LLM query splitter and the
    history summarizer;
  * `app/services/impl/langgraph_service_impl.py` — the streaming frame
    emitter of a chat turn;
  * `app/repositories/ThreadRepository.py` with the schema of
    `app/config/SqlLiteConfig.py` — the session–thread store.

Modelling conventions:
  * Python strings are Lean `String`s; `\d`, `\s`, `\w` and `str.lower()` are
    modelled on their ASCII behaviour (the inputs exercised by the repository
    and by all concrete witnesses below are ASCII).
  * LLM completion calls are opaque: they are passed in as oracle functions
    returning `Except String String` (a `.error` models the model call
    raising).  Prompt construction is a fixed injective function of the oracle
    argument, so quantifying over oracles of the argument is equivalent to
    quantifying over model behaviours.
  * Wall-clock instants are `Nat` seconds; one router invocation reads the
    clock once.
-/

/-- Python `str.isspace` set restricted to ASCII, the set used by `str.strip()`,
`str.split()` and the regex class `\s`. -/
def isPySpace (c : Char) : Bool :=
  c == ' ' || c == '\t' || c == '\n' || c == '\r' || c == Char.ofNat 11 || c == Char.ofNat 12

/-- ASCII letter, the regex class `[A-Za-z]`. -/
def isAsciiLetter (c : Char) : Bool :=
  ('A' ≤ c && c ≤ 'Z') || ('a' ≤ c && c ≤ 'z')

/-- ASCII digit, the regex class `\d` (ASCII fragment). -/
def isAsciiDigit (c : Char) : Bool :=
  '0' ≤ c && c ≤ '9'

/-- Regex word character `\w` (ASCII fragment). -/
def isWordChar (c : Char) : Bool :=
  isAsciiLetter c || isAsciiDigit c || c == '_'

/-- ASCII lowering of one character (`str.lower()` on the ASCII fragment). -/
def asciiLowerChar (c : Char) : Char :=
  if 'A' ≤ c && c ≤ 'Z' then Char.ofNat (c.toNat + 32) else c

/-- Python `str.lower()` (ASCII fragment). -/
def pyLower (s : String) : String :=
  String.mk (s.data.map asciiLowerChar)

/-- Python `str.strip()` with no argument: drop whitespace from both ends. -/
def pyStrip (s : String) : String :=
  String.mk (((s.data.dropWhile isPySpace).reverse.dropWhile isPySpace).reverse)

/-- Python `str.strip(chars)`: drop characters of the given set from both ends. -/
def pyStripChars (s : String) (cs : List Char) : String :=
  String.mk (((s.data.dropWhile (cs.contains ·)).reverse.dropWhile (cs.contains ·)).reverse)

/-- Python `str.split()` with no argument: split on whitespace runs, dropping
empty pieces.  `acc` holds the current word, reversed. -/
def pySplitWsAux (acc : List Char) : List Char → List String
  | [] => if acc.isEmpty then [] else [String.mk acc.reverse]
  | c :: cs =>
    if isPySpace c then
      if acc.isEmpty then pySplitWsAux [] cs
      else String.mk acc.reverse :: pySplitWsAux [] cs
    else pySplitWsAux (c :: acc) cs

/-- The word list of `str.split()` applied to a `String`. -/
def pyWords (s : String) : List String := pySplitWsAux [] s.data

/-- `needle` is a prefix of `hay` (character lists). -/
def listStartsWith : List Char → List Char → Bool
  | _, [] => true
  | [], _ :: _ => false
  | h :: hs, n :: ns => h == n && listStartsWith hs ns

/-- Python substring test `needle in hay`. -/
def containsSub (hay needle : String) : Bool :=
  go hay.data
where
  go : List Char → Bool
    | [] => listStartsWith [] needle.data
    | l@(_ :: rest) => listStartsWith l needle.data || go rest

/- ===================================================================
   Capability classifier (`pick_agent_for_subquery`, router.py lines 185–227)
   and the module-level cache `_query_cache` / `_cleanup_cache`
   (router.py lines 24–26, 43–60).
   =================================================================== -/

/-- One entry of the module cache `_query_cache`: the dict maps a key to a
`(value, timestamp)` pair. -/
structure CacheEntry (α : Type) where
  key : String
  value : α
  insertedAt : Nat
deriving DecidableEq, Repr

/-- The module-level mutable state of router.py: `_query_cache` and
`_last_cache_cleanup`.  The single Python dict is split into its two key
families, `f"split_{query}"` entries (value: list of sub-queries) and
`f"agent_{subquery}"` entries (value: capability name); the prefixes make the
two key families disjoint, so the split is faithful, with the prefix dropped
from the stored key. -/
structure QueryCache where
  split_entries : List (CacheEntry (List String))
  agent_entries : List (CacheEntry String)
  last_cleanup : Nat
deriving DecidableEq, Repr

/-- The cache state at module load: empty dict. -/
def emptyQueryCache : QueryCache := ⟨[], [], 0⟩

/-- Dict lookup by key (a Python dict holds at most one binding per key; the
model reads the first binding). -/
def cacheLookup {α : Type} (l : List (CacheEntry α)) (k : String) : Option (α × Nat) :=
  match l.find? (fun e => e.key == k) with
  | some e => some (e.value, e.insertedAt)
  | none => none

/-- Dict store `_query_cache[key] = (value, now)`: replace any existing
binding. -/
def cacheStore {α : Type} (l : List (CacheEntry α)) (k : String) (v : α) (t : Nat) :
    List (CacheEntry α) :=
  l.filter (fun e => e.key != k) ++ [⟨k, v, t⟩]

/-- `_cleanup_cache` (router.py lines 43–60): every 600 s, purge entries whose
timestamp is older than `now - 900`. -/
def cleanup_cache (now : Nat) (c : QueryCache) : QueryCache :=
  if now - c.last_cleanup > 600 then
    { split_entries := c.split_entries.filter (fun e => !(e.insertedAt < now - 900)),
      agent_entries := c.agent_entries.filter (fun e => !(e.insertedAt < now - 900)),
      last_cleanup := now }
  else c

/-- The curated keyword list of `pick_agent_for_subquery`. -/
def code_keywords : List String :=
  ["code", "program", "function", "class", "algorithm", "java", "python", "c++",
   "snippet", "write code", "implement", "script", "source code", "solve using code"]

/-- `any(kw in subquery.lower() for kw in code_keywords)`. -/
def hasCodeKeyword (subquery : String) : Bool :=
  code_keywords.any (fun kw => containsSub (pyLower subquery) kw)

/-- The operator class of the source regex `\d+\s*[OPS]\s*\d+` where `OPS`
stands for the eight characters star, plus, hyphen, slash, `x`, `÷`, caret,
percent (router.py line 220). -/
def math_operator_chars : List Char := ['*', '+', '-', '/', 'x', '÷', '^', '%']

/-- Match `\d+\s*[OPS]\s*\d+` anchored at the head of the character list.
The greedy `\d+` and `\s*` need no backtracking here: giving characters
back can never make the following operator-class character match. -/
def matchMathAt (ops : List Char) (l : List Char) : Bool :=
  match l with
  | [] => false
  | c :: _ =>
    isAsciiDigit c &&
      (let l1 := (l.dropWhile isAsciiDigit).dropWhile isPySpace
       match l1 with
       | [] => false
       | op :: l2 =>
         ops.contains op &&
           (match l2.dropWhile isPySpace with
            | [] => false
            | d :: _ => isAsciiDigit d))

/-- `re.search` of the numeric-operator pattern: try every start position. -/
def searchMathExpr (ops : List Char) : List Char → Bool
  | [] => false
  | l@(_ :: rest) => matchMathAt ops l || searchMathExpr ops rest

/-- `re.search` of the source pattern `\d+\s*[OPS]\s*\d+` as a Boolean. -/
def containsMathExpr (subquery : String) : Bool :=
  searchMathExpr math_operator_chars subquery.data

/-- The uncached decision body of `pick_agent_for_subquery` (router.py lines
202–223): curated code keywords, then the numeric-operator regex, else
`research`. -/
def agent_heuristic (subquery : String) : String :=
  if hasCodeKeyword subquery then "code"
  else if containsMathExpr subquery then "math"
  else "research"

/-- `pick_agent_for_subquery` (router.py lines 185–227): periodic cache sweep,
10-minute-TTL cache lookup keyed by `f"agent_{subquery}"`, else compute the
heuristic and store it.  Returns the capability and the updated module
cache. -/
def pick_agent_for_subquery (now : Nat) (cache : QueryCache) (subquery : String) :
    String × QueryCache :=
  let c0 := cleanup_cache now cache
  match cacheLookup c0.agent_entries subquery with
  | some (cached_result, timestamp) =>
    if now - timestamp < 600 then (cached_result, c0)
    else
      let result := agent_heuristic subquery
      (result, { c0 with agent_entries := cacheStore c0.agent_entries subquery result now })
  | none =>
    let result := agent_heuristic subquery
    (result, { c0 with agent_entries := cacheStore c0.agent_entries subquery result now })

/-- The operator class the spec sentence quotes: star, plus, hyphen, slash,
caret, percent — without `x` and `÷`.  Stated from the spec's words, for
comparison with the source regex. -/
def spec_math_operator_chars : List Char := ['*', '+', '-', '/', '^', '%']

/-- `re.search` of the spec's quoted regex, for comparison. -/
def specContainsMathExpr (subquery : String) : Bool :=
  searchMathExpr spec_math_operator_chars subquery.data

/- ===================================================================
   Messages and content (LangChain `BaseMessage` content is a string or a
   list of parts; see `extract_query`, router.py lines 82–106).
   =================================================================== -/

/-- One element of a content-part list: a plain string part, a dict of type
`"text"` carrying its text, or any other part (carried as its Python string
rendering, which is all the code ever uses of it). -/
inductive ContentPart where
  | strPart (s : String)
  | textDict (text : String)
  | otherPart (pyStr : String)
deriving DecidableEq, Repr

/-- LangChain message content: a plain string or a list of parts. -/
inductive Content where
  | str (s : String)
  | parts (l : List ContentPart)
deriving DecidableEq, Repr

/-- A LangChain message.  `ai` carries its `tool_calls` tool names (an
`AIMessage` attribute read by the streaming service; the router always
constructs `AIMessage(..., tool_calls=[])`). -/
inductive Msg where
  | human (content : Content)
  | ai (content : Content) (tool_calls : List String)
  | tool (content : Content)
  | system (content : Content)
deriving DecidableEq, Repr

/-- `isinstance(message, HumanMessage)`. -/
def Msg.isHuman : Msg → Bool
  | .human _ => true
  | _ => false

/-- `isinstance(message, ToolMessage)`. -/
def Msg.isTool : Msg → Bool
  | .tool _ => true
  | _ => false

/-- The `content` attribute of a message. -/
def Msg.content : Msg → Content
  | .human c => c
  | .ai c _ => c
  | .tool c => c
  | .system c => c

/-- The `tool_calls` attribute: only `AIMessage` has one. -/
def Msg.toolCalls : Msg → List String
  | .ai _ tcs => tcs
  | _ => []

/-- Content flattening as done inside `extract_query` (router.py lines
88–105): a string is returned as is; a part list is joined with `" "`, each
part contributing its text (note: no filtering of empty pieces here). -/
def contentQueryText : Content → String
  | .str s => s
  | .parts l =>
    String.intercalate " "
      (l.map (fun p =>
        match p with
        | .strPart s => s
        | .textDict t => t
        | .otherPart r => r))

/-- `extract_query` scans `reversed(messages)` for the first `HumanMessage`;
this helper works on the already-reversed list. -/
def extractQueryRev : List Msg → String
  | [] => ""
  | .human c :: _ => contentQueryText c
  | _ :: rest => extractQueryRev rest

/-- `extract_query` (router.py lines 82–106): the flattened content of the
most recent `HumanMessage`, else `""`. -/
def extract_query (messages : List Msg) : String :=
  extractQueryRev messages.reverse

/-- `should_use_llm` (router.py lines 109–114). -/
def should_use_llm (query : String) : Bool :=
  if query == "" || (pyStrip query).length < 3 then false
  else if (pyWords query).length == 1 then false
  else true

/- ===================================================================
   Greeting fast path (router.py lines 284–315).
   =================================================================== -/

/-- Case-insensitive literal match: `pat` is a lowercase pattern; on success
returns the rest of the input. -/
def matchCI : List Char → List Char → Option (List Char)
  | [], l => some l
  | _ :: _, [] => none
  | p :: ps, c :: cs => if asciiLowerChar c == p then matchCI ps cs else none

/-- The single-quote character (used for the literal `i'm` and in Python
reprs). -/
def sqChar : Char := Char.ofNat 39

/-- Regex word boundary just after a token whose last character is a word
character: the next character must be absent or a non-word character. -/
def boundaryAfterTok (rest : List Char) : Bool :=
  match rest with
  | [] => true
  | d :: _ => !isWordChar d

/-- A word boundary before the current position, given the previous
character (the position itself holds a word character `i`, `h`). -/
def prevBoundary : Option Char → Bool
  | none => true
  | some d => !isWordChar d

/-- `re.match(r"^(hi|hello|hey)\b", ql)` as a Boolean.  The three
alternatives have pairwise distinct second characters, so plain disjunction
of (prefix and boundary) is exact. -/
def matchGreetingStart (l : List Char) : Bool :=
  tok "hi" || tok "hello" || tok "hey"
where
  tok (s : String) : Bool :=
    match matchCI s.data l with
    | some rest => boundaryAfterTok rest
    | none => false

/-- One position of `re.search(r"\b(i am|i'm)\b", ql)`: the token with a word
boundary after it (the boundary before is checked by the caller). -/
def iAmGateAt (l : List Char) : Bool :=
  (match matchCI ['i', ' ', 'a', 'm'] l with
   | some rest => boundaryAfterTok rest
   | none => false) ||
  (match matchCI ['i', sqChar, 'm'] l with
   | some rest => boundaryAfterTok rest
   | none => false)

/-- `re.search(r"\b(i am|i'm)\b", ql)`: scan every position, tracking the
previous character for the leading word boundary. -/
def searchIAmGate (prev : Option Char) : List Char → Bool
  | [] => false
  | l@(c :: cs) => (prevBoundary prev && iAmGateAt l) || searchIAmGate (some c) cs

/-- The guard of the greeting fast path (router.py line 286):
`ql and (re.match(r"^(hi|hello|hey)\b", ql) or re.search(r"\b(i am|i'm)\b", ql))`
with `ql = (query or "").strip().lower()`. -/
def greetingTrigger (query : String) : Bool :=
  let ql := pyLower (pyStrip query)
  ql != "" && (matchGreetingStart ql.data || searchIAmGate none ql.data)

/-- Character class of the name group `[A-Za-z\s.APOS-]` (letters, whitespace,
dot, single quote, hyphen). -/
def isNameClassChar (c : Char) : Bool :=
  isAsciiLetter c || isPySpace c || c == '.' || c == sqChar || c == '-'

/-- Word boundary between the last character of the candidate group and the
following character (`none` = end of input, which counts as non-word). -/
def boundaryOk (last : Char) (next : Option Char) : Bool :=
  match next with
  | none => isWordChar last
  | some d => isWordChar last != isWordChar d

/-- Backtracking of the greedy `{0,40}` repetition followed by `\b`: shorten
the group (kept ≥ 1 character, its mandatory leading letter) until a word
boundary follows; works on the reversed group, `next` being the character
just after the current candidate. -/
def shrinkRev (next : Option Char) : List Char → Option (List Char)
  | [] => none
  | c :: rest => if boundaryOk c next then some (c :: rest) else shrinkRev (some c) rest

/-- After the matched `i am`/`i'm` token: `\s+` then the capture group
`[A-Za-z]` followed by greedily up to 40 class characters, then `\b`
(with backtracking).  Returns the captured group. -/
def nameGroupAfterTok (rest : List Char) : Option (List Char) :=
  match rest with
  | [] => none
  | c :: cs =>
    if isPySpace c then
      match cs.dropWhile isPySpace with
      | [] => none
      | d :: ds =>
        if isAsciiLetter d then
          let ext := (ds.takeWhile isNameClassChar).take 40
          let after := ds.drop ext.length
          match shrinkRev after.head? (d :: ext).reverse with
          | some revGroup => some revGroup.reverse
          | none => none
        else none
    else none

/-- One position of
`re.search(r"\b(?:i am|i'm)\s+([A-Za-z][A-Za-z\s.APOS-](BRACE)0,40(BRACE))\b", query, re.IGNORECASE)`
(router.py lines 288–290): try `i am` first, then `i'm`, as the alternation
does. -/
def nameMatchAt (l : List Char) : Option (List Char) :=
  match matchCI ['i', ' ', 'a', 'm'] l with
  | some rest =>
    (match nameGroupAfterTok rest with
     | some g => some g
     | none =>
       match matchCI ['i', sqChar, 'm'] l with
       | some rest2 => nameGroupAfterTok rest2
       | none => none)
  | none =>
    match matchCI ['i', sqChar, 'm'] l with
    | some rest2 => nameGroupAfterTok rest2
    | none => none

/-- The full scan of the name-extraction search, tracking the previous
character for the leading `\b`. -/
def searchName (prev : Option Char) : List Char → Option (List Char)
  | [] => none
  | l@(c :: cs) =>
    match (if prevBoundary prev then nameMatchAt l else none) with
    | some g => some g
    | none => searchName (some c) cs

/-- `name_match.group(1).strip().split()[0]` (router.py line 292): the first
whitespace-delimited word of the captured group (the group starts with a
letter, so it is the leading non-space run). -/
def firstWordOfGroup (g : List Char) : String :=
  String.mk (((g.dropWhile isPySpace).takeWhile (fun c => !isPySpace c)))

/-- The canned greeting reply (router.py lines 288–295). -/
def greetingReply (query : String) : String :=
  match searchName none query.data with
  | some g => "Nice to meet you, " ++ firstWordOfGroup g ++ "! How can I help you today?"
  | none => "Hi! How can I help you today?"

/- ===================================================================
   LLM oracles and `llm_split_query` (router.py lines 117–182).
   =================================================================== -/

/-- The opaque model calls the router makes.  `split` models
`llm.invoke(prompt)` of `llm_split_query` — the prompt is a fixed template
around the query, so the oracle is indexed by the query; it returns the
response content flattened to text (router.py lines 156–173), or `.error` if
the call raises.  `synth` models the final-response chain invocation of the
plan-completed branch (router.py lines 322–333), indexed by its sanitized
input. -/
structure LLMOracle where
  split : String → Except String String
  synth : Option Msg × List Msg → Except String String

/-- Python `str.split("\n")`: split at every newline, keeping empty pieces
(`"".split("\n") == [""]`).  `acc` holds the current line, reversed. -/
def splitLinesAux (acc : List Char) : List Char → List String
  | [] => [String.mk acc.reverse]
  | c :: cs =>
    if c == '\n' then String.mk acc.reverse :: splitLinesAux [] cs
    else splitLinesAux (c :: acc) cs

/-- The sub-query list parsed from the split response content (router.py
lines 175–177):
`[line.strip("- ").strip() for line in content_text.strip().split("\n") if line.strip()]`. -/
def parse_subqueries (content_text : String) : List String :=
  ((splitLinesAux [] (pyStrip content_text).data).filter (fun line => pyStrip line != "")).map
    (fun line => pyStrip (pyStripChars line ['-', ' ']))

/-- `llm_split_query` (router.py lines 117–182): periodic cache sweep, then a
5-minute-TTL cache lookup keyed by `f"split_{query}"`; on a miss, invoke the
model, parse its content into sub-queries, and cache them.  A raising model
call propagates as `.error`. -/
def llm_split_query (o : LLMOracle) (now : Nat) (cache : QueryCache) (query : String) :
    Except String (List String × QueryCache) :=
  let c0 := cleanup_cache now cache
  let fresh : Option (List String) :=
    match cacheLookup c0.split_entries query with
    | some (cached_result, timestamp) =>
      if now - timestamp < 300 then some cached_result else none
    | none => none
  match fresh with
  | some cached_result => .ok (cached_result, c0)
  | none =>
    match o.split query with
    | .error e => .error e
    | .ok content_text =>
      let subqueries := parse_subqueries content_text
      .ok (subqueries,
        { c0 with split_entries := cacheStore c0.split_entries query subqueries now })

/- ===================================================================
   The router state and `router` (router.py lines 230–244, 274–421).
   =================================================================== -/

/-- The fields of `CustomState` the router reads or writes (the Python
`TypedDict` is total=False: an absent field defaults to `[]`/`False` through
`state.get`; the model carries the defaults directly).  All remaining
`CustomState` fields are passed through untouched by `(**state)` and are
omitted. -/
structure CustomState where
  messages : List Msg
  route : String
  pending_routes : List String
  routing_plan : List (String × String)
  plan_active : Bool
deriving DecidableEq, Repr

/-- `should_skip_llm_split` (router.py lines 230–244). -/
def should_skip_llm_split (query : String) (state : CustomState) : Bool :=
  state.plan_active || !state.pending_routes.isEmpty || !should_use_llm query

/-- The sanitized history of the final-response branch (router.py lines
327–330): the first `HumanMessage` (Python `next(..., None)`, hence the
`Option`) and all `ToolMessage`s, in order. -/
def clean_input (history : List Msg) : Option Msg × List Msg :=
  (history.find? Msg.isHuman, history.filter Msg.isTool)

/-- The route/plan fold of router.py lines 396–399: classify every sub-query
(threading the classifier cache) and pair it with its agent. -/
def build_routing_plan (now : Nat) : QueryCache → List String → List (String × String) × QueryCache
  | cache, [] => ([], cache)
  | cache, subq :: rest =>
    let (agent, c1) := pick_agent_for_subquery now cache subq
    let (tail, c2) := build_routing_plan now c1 rest
    ((agent, subq) :: tail, c2)

/-- The LLM-split section of the router (router.py lines 393–421, reached by
falling through the skip block): split the query, build the routing plan,
fall back to `research` on an empty plan, else dispatch its first entry. -/
def llm_split_and_dispatch (o : LLMOracle) (now : Nat) (cache : QueryCache)
    (state : CustomState) (query : String) : Except String (CustomState × QueryCache) :=
  match llm_split_query o now cache query with
  | .error e => .error e
  | .ok (subqueries, c1) =>
    let (routing_plan, c2) := build_routing_plan now c1 subqueries
    match routing_plan with
    | [] => .ok ({ state with route := "research", pending_routes := [] }, c2)
    | (next_agent, next_subq) :: remaining =>
      .ok ({ state with
               messages := state.messages ++ [Msg.human (Content.str next_subq)],
               route := next_agent,
               routing_plan := remaining,
               pending_routes := remaining.map Prod.fst,
               plan_active := true }, c2)

/-- `router` (router.py lines 274–421).  Returns the new state and the
updated module cache; `.error` models an uncaught exception escaping the
router (e.g. a raising model call).  Branches, in source order:
greeting fast path; final synthesis when an active plan is exhausted; the
skip block (dispatch the next plan entry / close an exhausted plan / route a
trivial query via the heuristic classifier); and, falling through, the
LLM split. -/
def router (o : LLMOracle) (now : Nat) (cache : QueryCache) (state : CustomState) :
    Except String (CustomState × QueryCache) :=
  let query := extract_query state.messages
  if greetingTrigger query then
    .ok ({ state with
             messages := state.messages ++ [Msg.ai (Content.str (greetingReply query)) []],
             route := "__end__",
             plan_active := false,
             pending_routes := [],
             routing_plan := [] }, cache)
  else if state.plan_active && state.routing_plan.isEmpty then
    match o.synth (clean_input state.messages) with
    | .error e => .error e
    | .ok content =>
      .ok ({ state with
               messages := state.messages ++ [Msg.ai (Content.str content) []],
               route := "__end__",
               plan_active := false }, cache)
  else if should_skip_llm_split query state then
    match state.routing_plan with
    | (next_agent, next_subq) :: remaining =>
      .ok ({ state with
               messages := state.messages ++ [Msg.human (Content.str next_subq)],
               route := next_agent,
               routing_plan := remaining,
               pending_routes := remaining.map Prod.fst,
               plan_active := true }, cache)
    | [] =>
      if state.plan_active then
        .ok ({ state with route := "__end__", pending_routes := [], plan_active := false }, cache)
      else if !should_use_llm query then
        let (direct_route, c1) := pick_agent_for_subquery now cache query
        .ok ({ state with route := direct_route, pending_routes := [] }, c1)
      else llm_split_and_dispatch o now cache state query
  else llm_split_and_dispatch o now cache state query

/- ===================================================================
   History summarization (`summarize_messages`, router.py lines 247–270)
   and its trigger in the streaming service
   (langgraph_service_impl.py lines 188–192).
   =================================================================== -/

/-- `type(msg).__name__` of a LangChain message. -/
def Msg.className : Msg → String
  | .human _ => "HumanMessage"
  | .ai _ _ => "AIMessage"
  | .tool _ => "ToolMessage"
  | .system _ => "SystemMessage"

/-- The single-quote string used by Python reprs. -/
def pyQuote : String := String.mk [sqChar]

/-- Python `str(part)` of one content part (repr of the dict for part
dicts; embedded-quote escaping inside the part text is not modelled — no
claim depends on it). -/
def partPyStr : ContentPart → String
  | .strPart s => s
  | .textDict t =>
    "\x7b" ++ pyQuote ++ "type" ++ pyQuote ++ ": " ++ pyQuote ++ "text" ++ pyQuote ++ ", " ++
      pyQuote ++ "text" ++ pyQuote ++ ": " ++ pyQuote ++ t ++ pyQuote ++ "\x7d"
  | .otherPart r => r

/-- Python `f"{content}"` of a message content: a string renders as itself, a
part list as its list repr. -/
def contentPyStr : Content → String
  | .str s => s
  | .parts l =>
    "[" ++ String.intercalate ", "
      (l.map (fun p =>
        match p with
        | .strPart s => pyQuote ++ s ++ pyQuote
        | p => partPyStr p)) ++ "]"

/-- One line of the older-history serialization (router.py line 261):
`f"{type(msg).__name__}: {getattr(msg, 'content', '')}"`. -/
def msgHistoryLine (m : Msg) : String :=
  m.className ++ ": " ++ contentPyStr m.content

/-- `summarize_messages` (router.py lines 247–270): at most 6 messages pass
through untouched; otherwise keep the last 3 verbatim, serialize the rest,
and ask the summarization model (the `o` oracle, `.error` modelling the
`except` branch) for a summary.  Returns `(trimmed_messages, summary_text)`;
the summary is NOT inserted into the message list. -/
def summarize_messages (o : String → Except String String) (messages : List Msg) :
    List Msg × String :=
  if messages.length ≤ 6 then (messages, "")
  else
    let recent_messages := messages.drop (messages.length - 3)
    let older_messages_text :=
      String.intercalate "\n" ((messages.take (messages.length - 3)).map msgHistoryLine)
    match o older_messages_text with
    | .ok summary_content => (recent_messages, summary_content)
    | .error _ => (messages.drop (messages.length - 3), "")

/-- `MAX_MESSAGES` (langgraph_service_impl.py line 189). -/
def MAX_MESSAGES : Nat := 10

/-- The streaming service's summarization guard (langgraph_service_impl.py
line 190): `if len(chat_messages) > MAX_MESSAGES:`.  (The guarded call,
`summarize_messages(chat_messages, inject(LLMFactoryInterface))`, passes two
arguments to the one-parameter `summarize_messages` and so raises `TypeError`
whenever the guard fires; the call itself is therefore not representable as a
well-typed application of the embedded function.) -/
def service_triggers_summarization (chat_messages : List Msg) : Bool :=
  chat_messages.length > MAX_MESSAGES

/- ===================================================================
   The streaming frame emitter
   (`_execute_agent_impl`, langgraph_service_impl.py lines 169–327).
   =================================================================== -/

/-- One outbound SSE frame, structurally (each is serialized on the wire as
`data: <json>` plus a blank line). -/
inductive Frame where
  | metadata (threadId userId : String)
  | user_ack (content : String)
  | processing (content : String)
  | tool_call (content node : String)
  | token (content node : String)
  | error (content : String)
  | done
deriving DecidableEq, Repr

/-- Content flattening of the streaming loop (langgraph_service_impl.py
lines 263–277): like `extract_query`'s, but empty pieces are filtered before
joining. -/
def contentStreamText : Content → String
  | .str s => s
  | .parts l =>
    String.intercalate " "
      ((l.map (fun p =>
        match p with
        | .strPart s => s
        | .textDict t => t
        | .otherPart r => r)).filter (fun p => p != ""))

/-- Group a word list into chunks of 10, each rejoined with single spaces
(the `current_chunk` accumulation of lines 286–293: a chunk is flushed every
10 words and at the end, and `.strip()`ed on flush). -/
def wordGroups : List String → List String
  | [] => []
  | ws@(_ :: rest) =>
    String.intercalate " " (ws.take 10) :: wordGroups (rest.drop 9)
termination_by ws => ws.length
decreasing_by simp only [List.length_drop, List.length_cons]; omega

/-- The token frames streamed for one piece of text. -/
def tokenFrames (text node : String) : List Frame :=
  (wordGroups (pyWords text)).map (fun chunk => Frame.token chunk node)

/-- One `(node_name, state_update)` item of a streamed chunk; `none` models
`state_update is None`. -/
structure NodeUpdate where
  node : String
  upd : Option (List Msg × String)
deriving Repr

/-- The frames emitted for one node update (langgraph_service_impl.py lines
233–318): a `None` update is skipped; a non-empty `messages` update emits one
`tool_call` frame per tool call of its last message, then token frames of its
non-blank flattened content; otherwise a non-empty `answer` emits token
frames. -/
def updateFrames (nu : NodeUpdate) : List Frame :=
  match nu.upd with
  | none => []
  | some (msgs, answer) =>
    match msgs.getLast? with
    | some latest =>
      (latest.toolCalls.map (fun tool_name =>
        Frame.tool_call ("Executing " ++ tool_name ++ "...") nu.node)) ++
      (let content := contentStreamText latest.content
       if pyStrip content != "" then tokenFrames content nu.node else [])
    | none =>
      if answer != "" then tokenFrames answer nu.node else []

/-- All frames produced by the graph-streaming loop for a chunk list. -/
def chunksFrames (chunks : List (List NodeUpdate)) : List Frame :=
  chunks.flatMap (fun chunk => chunk.flatMap updateFrames)

/-- The frame sequence of one chat turn (langgraph_service_impl.py lines
202–327), starting at the generator's first `yield`: the metadata frame, the
acknowledgment and processing frames, the body produced by the streaming
loop, and the terminal `[DONE]` sentinel.  `failure = some (k, e)` models an
exception raised inside the `try` block after `k` body frames were emitted
(`k = 0`: before any, e.g. the `thread_id is None` check or `graph.stream`
raising at once): the `except` arm emits one error frame, and the `[DONE]`
sentinel is emitted unconditionally after the `try`/`except`. -/
def execute_agent_frames (thread_id user_id message : String)
    (chunks : List (List NodeUpdate)) (failure : Option (Nat × String)) : List Frame :=
  [Frame.metadata thread_id user_id,
   Frame.user_ack ("Got it 👍 you want " ++ message),
   Frame.processing "Processing your request..."] ++
  (match failure with
   | none => chunksFrames chunks
   | some (k, e) => (chunksFrames chunks).take k ++ [Frame.error e]) ++
  [Frame.done]

/-- Frame classifiers for the protocol statement. -/
def Frame.isMetadata : Frame → Bool
  | .metadata _ _ => true
  | _ => false

/-- Is this the error frame? -/
def Frame.isError : Frame → Bool
  | .error _ => true
  | _ => false

/-- Is this the terminal sentinel? -/
def Frame.isDone : Frame → Bool
  | .done => true
  | _ => false

/- ===================================================================
   ThreadRepository.save over the session_threads table
   (ThreadRepository.py lines 37–104, schema in SqlLiteConfig.py:
   id TEXT PRIMARY KEY, UNIQUE(session_id, thread_id)).
   =================================================================== -/

/-- One row of `session_threads`. -/
structure ThreadRow where
  id : String
  thread_id : String
  thread_label : Option String
  session_id : String
  created_at : String
deriving DecidableEq, Repr

/-- The result of `ThreadRepository.save`: the canonical stored row, or the
no-`created_at` fallback dict when the post-insert select finds nothing. -/
inductive SaveResult where
  | row (r : ThreadRow)
  | fallback (id session_id thread_id : String) (thread_label : Option String)
deriving DecidableEq, Repr

/-- Does inserting `r` violate the `id` primary key or the
`UNIQUE(session_id, thread_id)` constraint? -/
def violatesConstraint (tbl : List ThreadRow) (r : ThreadRow) : Bool :=
  tbl.any (fun x =>
    x.id == r.id || (x.session_id == r.session_id && x.thread_id == r.thread_id))

/-- `INSERT OR IGNORE INTO session_threads ...` with
`created_at TIMESTAMP DEFAULT CURRENT_TIMESTAMP`. -/
def insert_or_ignore (tbl : List ThreadRow) (r : ThreadRow) : List ThreadRow :=
  if violatesConstraint tbl r then tbl else tbl ++ [r]

/-- `SELECT ... WHERE session_id = ? AND thread_id = ? LIMIT 1` (the unique
constraint makes at most one row match, so first-match is exact). -/
def select_by_session_and_thread (tbl : List ThreadRow) (session_id thread_id : String) :
    Option ThreadRow :=
  tbl.find? (fun x => x.session_id == session_id && x.thread_id == thread_id)

/-- `ThreadRepository.save` (ThreadRepository.py lines 37–104).  `id` is the
resolved primary key (the caller's, or the fresh `uuid4` generated when the
Python argument is `None`); `now` is the database's `CURRENT_TIMESTAMP`.
Insert-or-ignore, then return the canonical stored row, falling back to an
echo of the arguments when the select finds nothing. -/
def ThreadRepository.save (tbl : List ThreadRow) (now : String)
    (session_id thread_id : String) (thread_label : Option String) (id : String) :
    List ThreadRow × SaveResult :=
  let tbl' := insert_or_ignore tbl ⟨id, thread_id, thread_label, session_id, now⟩
  match select_by_session_and_thread tbl' session_id thread_id with
  | some row => (tbl', .row row)
  | none => (tbl', .fallback id session_id thread_id thread_label)

/- ===================================================================
   The dispatch loop over a plan: the langgraph graph re-enters the router
   after each worker completion (state_graph_object.py routes every agent
   back to "router" via tools_condition END), the worker having appended its
   own (non-Human) messages.
   =================================================================== -/

/-- Which branch of `router` fires on a given state (the conditionals of
`router`, in source order). -/
inductive RouterBranch where
  | greeting
  | final_synthesis
  | dispatch
  | plan_exhausted
  | trivial_direct
  | llm_split
deriving DecidableEq, Repr

/-- The branch classifier, mirroring `router`'s tests one for one. -/
def routerBranch (state : CustomState) : RouterBranch :=
  let query := extract_query state.messages
  if greetingTrigger query then .greeting
  else if state.plan_active && state.routing_plan.isEmpty then .final_synthesis
  else if should_skip_llm_split query state then
    match state.routing_plan with
    | _ :: _ => .dispatch
    | [] =>
      if state.plan_active then .plan_exhausted
      else if !should_use_llm query then .trivial_direct
      else .llm_split
  else .llm_split

/-- Does a message list contain a `HumanMessage`? -/
def hasHumanMsg (l : List Msg) : Bool := l.any Msg.isHuman

/-- Run the router once per worker completion: element `k` of
`worker_outputs` is the message list the `k`-th dispatched worker appends
before the router is re-entered.  Returns, per router entry, the branch
taken, the resulting `route` and the query the router extracted from its
produced state, plus the state after the final router entry (made after
the last worker completion, with no further worker run). -/
def runPlanTrace (o : LLMOracle) (now : Nat) :
    QueryCache → CustomState → List (List Msg) →
    Except String (List (RouterBranch × String × String) × CustomState)
  | cache, state, [] =>
    (match router o now cache state with
     | .error e => .error e
     | .ok (s1, _) =>
       .ok ([(routerBranch state, s1.route, extract_query s1.messages)], s1))
  | cache, state, ws :: rest =>
    (match router o now cache state with
     | .error e => .error e
     | .ok (s1, c1) =>
       match runPlanTrace o now c1 { s1 with messages := s1.messages ++ ws } rest with
       | .error e => .error e
       | .ok (trace, final) =>
         .ok ((routerBranch state, s1.route, extract_query s1.messages) :: trace, final))

/- ===================================================================
   Theorems.
   =================================================================== -/

/-- Well-formedness of the classifier cache: every `agent_` entry stores
exactly the heuristic's answer for its key.  Holds at module load and is
preserved by every operation below. -/
def agentCacheWF (c : QueryCache) : Bool :=
  c.agent_entries.all (fun e => e.value == agent_heuristic e.key)

theorem agentCacheWF_filter (l : List (CacheEntry String)) (p : CacheEntry String → Bool)
    (h : l.all (fun e => e.value == agent_heuristic e.key) = true) :
    (l.filter p).all (fun e => e.value == agent_heuristic e.key) = true := by
  simp only [List.all_eq_true] at h ⊢
  intro e he
  exact h e (List.mem_of_mem_filter he)

theorem agentCacheWF_cleanup (now : Nat) (c : QueryCache) (h : agentCacheWF c = true) :
    agentCacheWF (cleanup_cache now c) = true := by
  unfold agentCacheWF cleanup_cache at *
  split
  · exact agentCacheWF_filter _ _ h
  · exact h

/-- The classifier, on a well-formed cache, returns exactly the heuristic
answer and keeps the cache well-formed. -/
theorem pick_agent_WF (now : Nat) (c : QueryCache) (q : String) (h : agentCacheWF c = true) :
    (pick_agent_for_subquery now c q).1 = agent_heuristic q ∧
      agentCacheWF (pick_agent_for_subquery now c q).2 = true := by
  have h0 : agentCacheWF (cleanup_cache now c) = true := agentCacheWF_cleanup now c h
  have hstore :
      agentCacheWF
        { cleanup_cache now c with
            agent_entries :=
              cacheStore (cleanup_cache now c).agent_entries q (agent_heuristic q) now } = true := by
    unfold agentCacheWF cacheStore at *
    simp only [List.all_append, List.all_eq_true, Bool.and_eq_true] at *
    refine ⟨fun e he => h0 e (List.mem_of_mem_filter he), ?_⟩
    simp
  cases hfind : cacheLookup (cleanup_cache now c).agent_entries q with
  | none =>
    simp only [pick_agent_for_subquery, hfind]
    exact ⟨trivial, hstore⟩
  | some vt =>
    obtain ⟨v, ts⟩ := vt
    have hv : v = agent_heuristic q := by
      cases hfe : List.find? (fun e => e.key == q) (cleanup_cache now c).agent_entries with
      | none =>
        simp only [cacheLookup, hfe] at hfind
        exact Option.noConfusion hfind
      | some e =>
        simp only [cacheLookup, hfe, Option.some.injEq, Prod.mk.injEq] at hfind
        have hkey : e.key = q := by simpa using List.find?_some hfe
        have hmem : e ∈ (cleanup_cache now c).agent_entries := List.mem_of_find?_eq_some hfe
        have hwf := (List.all_eq_true.mp h0) e hmem
        simp only [beq_iff_eq] at hwf
        rw [← hfind.1, hwf, hkey]
    by_cases htl : now - ts < 600
    · simp only [pick_agent_for_subquery, hfind, htl, if_true]
      exact ⟨hv, h0⟩
    · simp only [pick_agent_for_subquery, hfind, htl, if_false]
      exact ⟨trivial, hstore⟩

/-- C4 (counterexample): on `"3 x 4"` the classifier returns `"math"`
although the sub-query contains no code keyword and does not match the
regex quoted by the claim (whose operator class lacks `x` and `÷`) — the
claim predicts `"research"` for it. -/
theorem C4_counterexample :
    (pick_agent_for_subquery 0 emptyQueryCache "3 x 4").1 = "math" ∧
      hasCodeKeyword "3 x 4" = false ∧
      specContainsMathExpr "3 x 4" = false := by
  refine ⟨rfl, ?_, ?_⟩ <;> decide

/-- C4 (amended): for every sub-query `q` and well-formed cache, the
classifier returns `"code"` when `q` contains a curated code keyword,
`"math"` when `q` matches the source's numeric-operator regex — whose
operator class is star, plus, hyphen, slash, `x`, `÷`, caret, percent —
and `"research"` otherwise, the keyword check taking precedence. -/
theorem C4_classifier_cases (now : Nat) (c : QueryCache) (q : String)
    (h : agentCacheWF c = true) :
    (pick_agent_for_subquery now c q).1 =
      (if hasCodeKeyword q then "code"
       else if containsMathExpr q then "math"
       else "research") :=
  (pick_agent_WF now c q h).1

/-- C4 witness: the amended theorem applied at concrete inputs of each of
the three classes, on the empty (well-formed) cache. -/
theorem C4_classifier_cases_witness :
    (pick_agent_for_subquery 0 emptyQueryCache "write a python script").1 =
      (if hasCodeKeyword "write a python script" then "code"
       else if containsMathExpr "write a python script" then "math"
       else "research") ∧
    (pick_agent_for_subquery 0 emptyQueryCache "3 ÷ 4").1 =
      (if hasCodeKeyword "3 ÷ 4" then "code"
       else if containsMathExpr "3 ÷ 4" then "math"
       else "research") ∧
    (pick_agent_for_subquery 0 emptyQueryCache "who is the PM of India").1 =
      (if hasCodeKeyword "who is the PM of India" then "code"
       else if containsMathExpr "who is the PM of India" then "math"
       else "research") :=
  ⟨C4_classifier_cases 0 emptyQueryCache "write a python script" (by decide),
   C4_classifier_cases 0 emptyQueryCache "3 ÷ 4" (by decide),
   C4_classifier_cases 0 emptyQueryCache "who is the PM of India" (by decide)⟩

/-- C5: repeated classification of the same sub-query is deterministic —
whatever the two call instants (so in particular across a TTL sweep that
evicts the entry, since `now2` is arbitrary), the second call through the
cache state left by the first returns the same capability, which is exactly
the freshly recomputed heuristic answer, and the cache stays well-formed. -/
theorem C5_classifier_determinism (c : QueryCache) (now1 now2 : Nat) (q : String)
    (h : agentCacheWF c = true) :
    (pick_agent_for_subquery now2 (pick_agent_for_subquery now1 c q).2 q).1 =
        (pick_agent_for_subquery now1 c q).1 ∧
      (pick_agent_for_subquery now1 c q).1 = agent_heuristic q ∧
      agentCacheWF (pick_agent_for_subquery now2 (pick_agent_for_subquery now1 c q).2 q).2 =
        true := by
  obtain ⟨h1, hwf1⟩ := pick_agent_WF now1 c q h
  obtain ⟨h2, hwf2⟩ := pick_agent_WF now2 (pick_agent_for_subquery now1 c q).2 q hwf1
  exact ⟨h2.trans h1.symm, h1, hwf2⟩

/-- C5 witness: determinism at a concrete sub-query, with the second call
1000 s later — past the 600 s sweep interval and the 900 s eviction cutoff,
so the sweep actually evicts the entry stored by the first call. -/
theorem C5_classifier_determinism_witness :
    (pick_agent_for_subquery 1000 (pick_agent_for_subquery 0 emptyQueryCache "3*99.8").2
          "3*99.8").1 =
        (pick_agent_for_subquery 0 emptyQueryCache "3*99.8").1 ∧
      (pick_agent_for_subquery 0 emptyQueryCache "3*99.8").1 = agent_heuristic "3*99.8" ∧
      agentCacheWF
          (pick_agent_for_subquery 1000 (pick_agent_for_subquery 0 emptyQueryCache "3*99.8").2
              "3*99.8").2 =
        true :=
  C5_classifier_determinism emptyQueryCache 0 1000 "3*99.8" (by decide)

/-- `extractQueryRev` skips a non-human prefix. -/
theorem extractQueryRev_append_nonhuman (l r : List Msg)
    (h : ∀ x ∈ l, Msg.isHuman x = false) : extractQueryRev (l ++ r) = extractQueryRev r := by
  induction l with
  | nil => rfl
  | cons a t ih =>
    have ha := h a (by simp)
    cases a with
    | human c => simp [Msg.isHuman] at ha
    | ai c tcs => exact ih (fun x hx => h x (by simp [hx]))
    | tool c => exact ih (fun x hx => h x (by simp [hx]))
    | system c => exact ih (fun x hx => h x (by simp [hx]))

/-- Appending messages that contain no `HumanMessage` does not change the
extracted query. -/
theorem extract_query_append_nonhuman (m ws : List Msg) (h : hasHumanMsg ws = false) :
    extract_query (m ++ ws) = extract_query m := by
  unfold extract_query
  rw [List.reverse_append]
  refine extractQueryRev_append_nonhuman _ _ ?_
  intro x hx
  rw [List.mem_reverse] at hx
  unfold hasHumanMsg at h
  by_contra hcon
  have hx2 : ws.any Msg.isHuman = true := by
    rw [List.any_eq_true]
    exact ⟨x, hx, by revert hcon; cases Msg.isHuman x <;> simp⟩
  rw [h] at hx2
  exact Bool.noConfusion hx2

/-- The extracted query of a history ending in a plain-string
`HumanMessage` is that string. -/
theorem extract_query_append_human (m : List Msg) (q : String) :
    extract_query (m ++ [Msg.human (Content.str q)]) = q := by
  unfold extract_query
  rw [List.reverse_append]
  rfl

/-- The state produced by dispatching the head of the plan. -/
def dispatchedState (s : CustomState) (a q : String) (rest : List (String × String)) :
    CustomState :=
  { s with
      messages := s.messages ++ [Msg.human (Content.str q)],
      route := a,
      routing_plan := rest,
      pending_routes := rest.map Prod.fst,
      plan_active := true }

/-- On a non-greeting state with an active, non-empty plan, the router takes
the dispatch branch: it pops the plan head deterministically, touching
neither the oracle nor the cache. -/
theorem router_dispatch_eq (o : LLMOracle) (now : Nat) (cache : QueryCache)
    (s : CustomState) (a q : String) (rest : List (String × String))
    (hg : greetingTrigger (extract_query s.messages) = false)
    (ha : s.plan_active = true)
    (hplan : s.routing_plan = (a, q) :: rest) :
    router o now cache s = .ok (dispatchedState s a q rest, cache) ∧
      routerBranch s = .dispatch := by
  constructor
  · unfold router
    simp only [hg, ha, hplan, should_skip_llm_split, dispatchedState, List.isEmpty_cons,
      Bool.false_eq_true, if_false, Bool.and_false, Bool.true_or]
    exact if_pos trivial
  · unfold routerBranch
    simp only [hg, ha, hplan, should_skip_llm_split, List.isEmpty_cons,
      Bool.false_eq_true, if_false, Bool.and_false, Bool.true_or]
    exact if_pos trivial

/-- The state produced by the final-synthesis branch. -/
def synthesizedState (s : CustomState) (content : String) : CustomState :=
  { s with
      messages := s.messages ++ [Msg.ai (Content.str content) []],
      route := "__end__",
      plan_active := false }

/-- On a non-greeting state with an active, exhausted plan, the router takes
the final-synthesis branch: one synthesis-oracle call, `plan_active` reset,
route set to the terminal sentinel, cache untouched. -/
theorem router_synth_eq (o : LLMOracle) (now : Nat) (cache : QueryCache)
    (s : CustomState) (content : String)
    (hg : greetingTrigger (extract_query s.messages) = false)
    (ha : s.plan_active = true)
    (hplan : s.routing_plan = [])
    (hs : o.synth (clean_input s.messages) = .ok content) :
    router o now cache s = .ok (synthesizedState s content, cache) ∧
      routerBranch s = .final_synthesis := by
  constructor
  · unfold router
    simp only [hg, ha, hplan, hs, synthesizedState, List.isEmpty_nil,
      Bool.false_eq_true, if_false, Bool.and_true, if_true]
  · unfold routerBranch
    simp only [hg, ha, hplan, List.isEmpty_nil, Bool.false_eq_true, if_false,
      Bool.and_true, if_true]

/-- C2: replaying the router on the same persisted snapshot with an active,
non-empty plan is idempotent and oracle-free — for any two oracles, any two
clock instants and any two cache states, both runs succeed and produce the
same state (in particular the same dispatched sub-query and target
capability), leaving their caches untouched; no LLM call is consulted. -/
theorem C2_idempotent_resume (s : CustomState) (o1 o2 : LLMOracle)
    (now1 now2 : Nat) (c1 c2 : QueryCache)
    (ha : s.plan_active = true) (hne : s.routing_plan ≠ []) :
    ∃ s', router o1 now1 c1 s = .ok (s', c1) ∧ router o2 now2 c2 s = .ok (s', c2) := by
  cases hplan : s.routing_plan with
  | nil => exact absurd hplan hne
  | cons head rest =>
    obtain ⟨a, q⟩ := head
    by_cases hg : greetingTrigger (extract_query s.messages) = true
    · refine ⟨{ s with
          messages := s.messages ++ [Msg.ai (Content.str (greetingReply (extract_query s.messages))) []],
          route := "__end__", plan_active := false, pending_routes := [],
          routing_plan := [] }, ?_, ?_⟩ <;>
        (unfold router; simp only [hg, if_true])
    · rw [Bool.not_eq_true] at hg
      exact ⟨dispatchedState s a q rest,
        (router_dispatch_eq o1 now1 c1 s a q rest hg ha hplan).1,
        (router_dispatch_eq o2 now2 c2 s a q rest hg ha hplan).1⟩

/-- C2 witness: a concrete mid-plan snapshot replayed with two different
oracles, instants and caches dispatches the same sub-query to the same
capability. -/
theorem C2_idempotent_resume_witness :
    ∃ s', router ⟨fun _ => .ok "a", fun _ => .ok "b"⟩ 3 emptyQueryCache
            ⟨[Msg.human (Content.str "do both tasks")], "", ["research"],
              [("math", "compute 2+2"), ("research", "capital of france")], true⟩ =
          .ok (s', emptyQueryCache) ∧
        router ⟨fun _ => .error "down", fun _ => .error "down"⟩ 99
            ⟨[], [⟨"k", "research", 0⟩], 7⟩
            ⟨[Msg.human (Content.str "do both tasks")], "", ["research"],
              [("math", "compute 2+2"), ("research", "capital of france")], true⟩ =
          .ok (s', ⟨[], [⟨"k", "research", 0⟩], 7⟩) :=
  C2_idempotent_resume
    ⟨[Msg.human (Content.str "do both tasks")], "", ["research"],
      [("math", "compute 2+2"), ("research", "capital of france")], true⟩
    ⟨fun _ => .ok "a", fun _ => .ok "b"⟩ ⟨fun _ => .error "down", fun _ => .error "down"⟩
    3 99 emptyQueryCache ⟨[], [⟨"k", "research", 0⟩], 7⟩ rfl (by decide)

/-- The dispatch loop invariant: from an active state whose plan contains no
greeting-triggering sub-query, whose current query is non-greeting, and with
one (non-human) worker output per plan entry, the loop dispatches exactly
the plan's entries in order and then runs final synthesis exactly once,
ending inactive at the terminal sentinel. -/
theorem runPlanTrace_spec (o : LLMOracle) (now : Nat) (plan : List (String × String)) :
    ∀ (cache : QueryCache) (s : CustomState) (results : List (List Msg)),
      s.plan_active = true →
      s.routing_plan = plan →
      greetingTrigger (extract_query s.messages) = false →
      (∀ e ∈ plan, greetingTrigger e.2 = false) →
      results.length = plan.length →
      (∀ ws ∈ results, hasHumanMsg ws = false) →
      (∀ inp, ∃ r, o.synth inp = .ok r) →
      ∃ qf fin,
        runPlanTrace o now cache s results =
          .ok ((plan.map fun e => (RouterBranch.dispatch, e.1, e.2)) ++
               [(RouterBranch.final_synthesis, "__end__", qf)], fin) ∧
          fin.plan_active = false ∧ fin.route = "__end__" ∧ fin.routing_plan = [] := by
  induction plan with
  | nil =>
    intro cache s results ha hplan hg _ hlen _ hsynth
    cases results with
    | cons _ _ => simp at hlen
    | nil =>
      obtain ⟨r, hr⟩ := hsynth (clean_input s.messages)
      obtain ⟨hrout, hbr⟩ := router_synth_eq o now cache s r hg ha hplan hr
      refine ⟨extract_query (synthesizedState s r).messages, synthesizedState s r,
        ?_, rfl, rfl, ?_⟩
      · unfold runPlanTrace
        rw [hrout, hbr]
        simp [synthesizedState]
      · simpa [synthesizedState] using hplan
  | cons head rest ih =>
    intro cache s results ha hplan hg hplan_ng hlen hws hsynth
    obtain ⟨a, q⟩ := head
    cases results with
    | nil => simp at hlen
    | cons ws results' =>
      obtain ⟨hrout, hbr⟩ := router_dispatch_eq o now cache s a q rest hg ha hplan
      set s1 := dispatchedState s a q rest with hs1
      have hq1 : extract_query s1.messages = q := by
        simp only [hs1, dispatchedState]
        exact extract_query_append_human s.messages q
      set mid : CustomState := { s1 with messages := s1.messages ++ ws } with hmid
      have hqmid : extract_query mid.messages = q := by
        simp only [hmid]
        rw [extract_query_append_nonhuman s1.messages ws (hws ws (by simp))]
        exact hq1
      have hgq : greetingTrigger q = false := hplan_ng (a, q) (by simp)
      have hrestmid : mid.routing_plan = rest := by simp [hmid, hs1, dispatchedState]
      have hactmid : mid.plan_active = true := by simp [hmid, hs1, dispatchedState]
      obtain ⟨qf, fin, htr, hfa, hfr, hfp⟩ :=
        ih cache mid results'
          hactmid
          hrestmid
          (by rw [hqmid]; exact hgq)
          (fun e he => hplan_ng e (List.mem_cons_of_mem _ he))
          (by simpa using hlen)
          (fun w hw => hws w (by simp [hw]))
          hsynth
      refine ⟨qf, fin, ?_, hfa, hfr, hfp⟩
      unfold runPlanTrace
      rw [hrout]
      simp only []
      rw [← hmid, htr, hbr]
      have hroute1 : s1.route = a := by simp [hs1, dispatchedState]
      rw [hroute1, hq1]
      simp

/-- A fixed benign oracle for closed counterexamples/witnesses. -/
def oFixed : LLMOracle := ⟨fun _ => .ok "", fun _ => .ok "FINAL"⟩

/-- The mid-plan state reached from the two-entry plan
`[("code", "hello world program in python"), ("research", "what is the capital of france")]`
after the router dispatched the first entry (appending it as a
`HumanMessage`) and its worker completed (appending an `AIMessage`):
`plan_active` is still true and `routing_plan` holds the remaining entry,
so the claim requires the next router entry to dispatch it. -/
def hijackedMid : CustomState :=
  ⟨[Msg.human (Content.str "do both tasks"),
    Msg.human (Content.str "hello world program in python"),
    Msg.ai (Content.str "done") []],
   "code", ["research"],
   [("research", "what is the capital of france")], true⟩

/-- C1 (counterexample): re-entering the router on `hijackedMid` — an active
state with a non-empty remaining plan — does not dispatch the remaining plan
entry and never reaches final synthesis: the dispatched first sub-query
`"hello world program in python"` matches the greeting fast-path pattern
(`re.match(r"^(hi|hello|hey)\b", ...)`), which wipes the plan, emits a canned
reply and ends the turn.  This falsifies the claim as stated for this
state. -/
theorem C1_counterexample :
    router oFixed 0 emptyQueryCache hijackedMid =
      .ok (⟨[Msg.human (Content.str "do both tasks"),
             Msg.human (Content.str "hello world program in python"),
             Msg.ai (Content.str "done") [],
             Msg.ai (Content.str "Hi! How can I help you today?") []],
            "__end__", [], [], false⟩, emptyQueryCache) ∧
      routerBranch hijackedMid = RouterBranch.greeting :=
  ⟨rfl, rfl⟩

/-- C1 (amended): for every state with `plan_active = true` and a non-empty
`routing_plan` of length N, provided neither the state's current query nor
any planned sub-query matches the greeting fast-path pattern and each worker
completion appends only non-`HumanMessage`s, re-entering the router once per
worker completion dispatches each plan entry in order (N dispatch branches
with the plan's capabilities and sub-queries), and the router entry after
the N-th completion takes the final-synthesis branch exactly once, setting
`plan_active` to false and `route` to the terminal sentinel `"__end__"`. -/
theorem C1_plan_exhaustion (o : LLMOracle) (now : Nat) (cache : QueryCache)
    (s : CustomState) (results : List (List Msg))
    (_hne : s.routing_plan ≠ [])
    (ha : s.plan_active = true)
    (hg : greetingTrigger (extract_query s.messages) = false)
    (hplan_ng : ∀ e ∈ s.routing_plan, greetingTrigger e.2 = false)
    (hlen : results.length = s.routing_plan.length)
    (hws : ∀ ws ∈ results, hasHumanMsg ws = false)
    (hsynth : ∀ inp, ∃ r, o.synth inp = .ok r) :
    ∃ qf fin,
      runPlanTrace o now cache s results =
        .ok ((s.routing_plan.map fun e => (RouterBranch.dispatch, e.1, e.2)) ++
             [(RouterBranch.final_synthesis, "__end__", qf)], fin) ∧
        fin.plan_active = false ∧ fin.route = "__end__" ∧ fin.routing_plan = [] :=
  runPlanTrace_spec o now s.routing_plan cache s results ha rfl hg hplan_ng hlen hws hsynth

/-- C1 witness: the amended theorem on the concrete two-entry plan
`[("math", "compute 2+2"), ("research", "capital of france")]` with benign
workers and a succeeding synthesis model. -/
theorem C1_plan_exhaustion_witness :
    ∃ qf fin,
      runPlanTrace ⟨fun _ => .ok "", fun _ => .ok "FINAL"⟩ 0 emptyQueryCache
          ⟨[Msg.human (Content.str "do both tasks")], "", ["math", "research"],
            [("math", "compute 2+2"), ("research", "capital of france")], true⟩
          [[Msg.ai (Content.str "4") []], [Msg.ai (Content.str "Paris") []]] =
        .ok (([("math", "compute 2+2"), ("research", "capital of france")].map
                fun e => (RouterBranch.dispatch, e.1, e.2)) ++
             [(RouterBranch.final_synthesis, "__end__", qf)], fin) ∧
        fin.plan_active = false ∧ fin.route = "__end__" ∧ fin.routing_plan = [] :=
  C1_plan_exhaustion ⟨fun _ => .ok "", fun _ => .ok "FINAL"⟩ 0 emptyQueryCache
    ⟨[Msg.human (Content.str "do both tasks")], "", ["math", "research"],
      [("math", "compute 2+2"), ("research", "capital of france")], true⟩
    [[Msg.ai (Content.str "4") []], [Msg.ai (Content.str "Paris") []]]
    (by decide) rfl (by decide) (by decide) rfl (by decide)
    (fun _ => ⟨"FINAL", rfl⟩)

/-- The research-fallback / dispatch split section preserves the
`plan_active = false → routing_plan = []` invariant. -/
theorem llm_split_and_dispatch_inv (o : LLMOracle) (now : Nat) (cache : QueryCache)
    (s : CustomState) (query : String) (s' : CustomState) (c' : QueryCache)
    (hinv : s.plan_active = false → s.routing_plan = [])
    (h : llm_split_and_dispatch o now cache s query = .ok (s', c')) :
    s'.plan_active = false → s'.routing_plan = [] := by
  unfold llm_split_and_dispatch at h
  cases hsq : llm_split_query o now cache query with
  | error e => rw [hsq] at h; exact Except.noConfusion h
  | ok pr =>
    obtain ⟨subqs, c1⟩ := pr
    rw [hsq] at h
    cases hbp : build_routing_plan now c1 subqs with
    | mk plan c2 =>
      simp only [hbp] at h
      cases plan with
      | nil =>
        injection h with hpair
        rw [Prod.mk.injEq] at hpair
        rw [← hpair.1]
        intro hpa
        exact hinv hpa
      | cons head remaining =>
        obtain ⟨na, nq⟩ := head
        injection h with hpair
        rw [Prod.mk.injEq] at hpair
        rw [← hpair.1]
        intro hpa
        simp at hpa

/-- C3 (amended): the router preserves the invariant — if the input state
satisfies `plan_active = false → routing_plan = []`, so does every state it
returns: the greeting fast path and the final-synthesis branch establish it
outright, the dispatch branches set `plan_active = true`, and the
plan-exhausted, trivial-direct and empty-plan-fallback branches leave a plan
that is already empty. -/
theorem C3_invariant_preservation (o : LLMOracle) (now : Nat) (cache : QueryCache)
    (s : CustomState) (s' : CustomState) (c' : QueryCache)
    (hinv : s.plan_active = false → s.routing_plan = [])
    (h : router o now cache s = .ok (s', c')) :
    s'.plan_active = false → s'.routing_plan = [] := by
  cases hgreet : greetingTrigger (extract_query s.messages) with
  | true =>
    unfold router at h
    simp only [hgreet, if_true] at h
    injection h with hpair
    rw [Prod.mk.injEq] at hpair
    rw [← hpair.1]
    intro
    rfl
  | false =>
    cases ha : s.plan_active with
    | true =>
      cases hplan : s.routing_plan with
      | nil =>
        unfold router at h
        simp only [hgreet, ha, hplan, List.isEmpty_nil, Bool.and_true, Bool.false_eq_true,
          if_false, if_true] at h
        cases hsy : o.synth (clean_input s.messages) with
        | error e => rw [hsy] at h; exact Except.noConfusion h
        | ok content =>
          rw [hsy] at h
          injection h with hpair
          rw [Prod.mk.injEq] at hpair
          rw [← hpair.1]
          intro
          rfl
      | cons head rest =>
        obtain ⟨a, q⟩ := head
        obtain ⟨hrout, -⟩ := router_dispatch_eq o now cache s a q rest hgreet ha hplan
        rw [hrout] at h
        injection h with hpair
        rw [Prod.mk.injEq] at hpair
        rw [← hpair.1]
        intro hpa
        simp [dispatchedState] at hpa
    | false =>
      have hplan : s.routing_plan = [] := hinv (by rw [ha])
      by_cases huse : should_use_llm (extract_query s.messages) = true
      · have hL : llm_split_and_dispatch o now cache s (extract_query s.messages) =
            .ok (s', c') := by
          unfold router at h
          simp only [hgreet, ha, hplan, Bool.false_and, Bool.false_eq_true, if_false,
            huse, Bool.not_true, ite_self] at h
          exact h
        exact llm_split_and_dispatch_inv o now cache s _ s' c' (fun _ => hplan) hL
      · have hskip : should_skip_llm_split (extract_query s.messages) s = true := by
          unfold should_skip_llm_split
          rw [Bool.not_eq_true] at huse
          simp [huse]
        cases hpk : pick_agent_for_subquery now cache (extract_query s.messages) with
        | mk direct_route c1 =>
          unfold router at h
          rw [Bool.not_eq_true] at huse
          simp only [hgreet, ha, hplan, Bool.false_and, Bool.false_eq_true, if_false,
            hskip, if_true, huse, Bool.not_false, hpk] at h
          injection h with hpair
          rw [Prod.mk.injEq] at hpair
          rw [← hpair.1]
          intro
          rfl

/-- An invariant-violating input: `plan_active = false` with a non-empty
`routing_plan`, and a complex non-greeting query. -/
def stateC3 : CustomState :=
  ⟨[Msg.human (Content.str "what is the capital of france")], "", [], [("research", "x")], false⟩

/-- What the router returns on `stateC3` when the split model yields no
usable sub-queries: the empty-plan research fallback, which leaves
`routing_plan` untouched. -/
def outC3 : CustomState :=
  ⟨[Msg.human (Content.str "what is the capital of france")], "research", [],
   [("research", "x")], false⟩

/-- The cache after that run: the empty split result is memoized. -/
def outCacheC3 : QueryCache :=
  ⟨[⟨"what is the capital of france", [], 0⟩], [], 0⟩

/-- C3 (counterexample): the empty-plan research-fallback branch returns a
state with `plan_active = false` and a non-empty `routing_plan` — the
returned state violates the invariant (the input already violated it; the
branch preserves rather than establishes the invariant, refuting the claim
that every returned state satisfies it). -/
theorem C3_counterexample :
    router oFixed 0 emptyQueryCache stateC3 = .ok (outC3, outCacheC3) ∧
      outC3.plan_active = false ∧ outC3.routing_plan.isEmpty = false :=
  ⟨rfl, rfl, rfl⟩

/-- A trivial single-token, non-greeting state with no plan. -/
def trivState : CustomState := ⟨[Msg.human (Content.str "France")], "", [], [], false⟩

/-- The state the router returns on `trivState`. -/
def trivOut : CustomState := ⟨[Msg.human (Content.str "France")], "research", [], [], false⟩

/-- The classifier cache after that run. -/
def trivOutCache : QueryCache := ⟨[], [⟨"France", "research", 0⟩], 0⟩

/-- C3 witness: the preservation theorem applied to the concrete trivial
state (which satisfies the invariant), with the concrete router run and the
returned state's inactive flag discharged by evaluation. -/
theorem C3_invariant_preservation_witness :
    trivOut.routing_plan = [] :=
  C3_invariant_preservation oFixed 0 emptyQueryCache trivState trivOut trivOutCache
    (fun _ => rfl) rfl rfl

/-- C6 (amended): a query that is a single token or shorter than 3 characters
after stripping (`should_use_llm` false) and does not match the greeting
fast-path pattern, entering with no active plan, is routed directly to the
heuristic classifier's capability with empty `pending_routes`, an unchanged
(empty) `routing_plan`, and no LLM splitter call — the result is the same for
every oracle. -/
theorem C6_trivial_bypass (o : LLMOracle) (now : Nat) (c : QueryCache) (s : CustomState)
    (hq : should_use_llm (extract_query s.messages) = false)
    (hg : greetingTrigger (extract_query s.messages) = false)
    (ha : s.plan_active = false)
    (hp : s.routing_plan = [])
    (hwf : agentCacheWF c = true) :
    router o now c s =
      .ok ({ s with route := agent_heuristic (extract_query s.messages), pending_routes := [] },
           (pick_agent_for_subquery now c (extract_query s.messages)).2) := by
  have hskip : should_skip_llm_split (extract_query s.messages) s = true := by
    unfold should_skip_llm_split
    simp [hq]
  cases hpk : pick_agent_for_subquery now c (extract_query s.messages) with
  | mk direct_route c1 =>
    have hdr : direct_route = agent_heuristic (extract_query s.messages) := by
      have hh := (pick_agent_WF now c (extract_query s.messages) hwf).1
      rw [hpk] at hh
      exact hh
    unfold router
    simp only [hg, ha, hp, Bool.false_and, Bool.false_eq_true, if_false, hskip, if_true,
      hq, Bool.not_false, hpk]
    rw [hdr]

/-- The single-token greeting input. -/
def stateC6 : CustomState := ⟨[Msg.human (Content.str "hi")], "", [], [], false⟩

/-- What the router returns on it: the greeting fast path, not the
classifier's capability. -/
def outC6 : CustomState :=
  ⟨[Msg.human (Content.str "hi"),
    Msg.ai (Content.str "Hi! How can I help you today?") []],
   "__end__", [], [], false⟩

/-- C6 (counterexample): on the single-token input `"hi"` with no active
plan, the router does not route to the heuristic capability (`"research"`):
the greeting fast path answers with a canned reply and the terminal
sentinel. -/
theorem C6_counterexample :
    router oFixed 0 emptyQueryCache stateC6 = .ok (outC6, emptyQueryCache) ∧
      agent_heuristic "hi" = "research" ∧
      (outC6.route == agent_heuristic "hi") = false :=
  ⟨rfl, rfl, rfl⟩

/-- C6 witness: the amended theorem at the concrete single-token input
`"France"` on the empty cache. -/
theorem C6_trivial_bypass_witness :
    router oFixed 0 emptyQueryCache trivState = .ok (trivOut, trivOutCache) :=
  C6_trivial_bypass oFixed 0 emptyQueryCache trivState rfl rfl rfl rfl (by decide)

/-- C7 (amended): when the split is reached (no active plan, no pending
routes, complex non-greeting query), an empty decomposition — the model
returned nothing usable — makes the router fall back locally to the
`research` capability with no error; but a raising model call is NOT caught:
the router re-raises it to its caller. -/
theorem C7_decomposition_fallback (o : LLMOracle) (now : Nat) (c : QueryCache)
    (s : CustomState)
    (hg : greetingTrigger (extract_query s.messages) = false)
    (ha : s.plan_active = false)
    (hpend : s.pending_routes = [])
    (hq : should_use_llm (extract_query s.messages) = true) :
    (∀ e, llm_split_query o now c (extract_query s.messages) = .error e →
        router o now c s = .error e) ∧
    (∀ c1, llm_split_query o now c (extract_query s.messages) = .ok ([], c1) →
        router o now c s = .ok ({ s with route := "research", pending_routes := [] }, c1)) := by
  have hrouter : router o now c s =
      llm_split_and_dispatch o now c s (extract_query s.messages) := by
    have hskip : should_skip_llm_split (extract_query s.messages) s = false := by
      unfold should_skip_llm_split
      simp [ha, hpend, hq]
    unfold router
    simp only [hg, ha, Bool.false_and, Bool.false_eq_true, if_false, hskip]
  constructor
  · intro e hsq
    rw [hrouter]
    unfold llm_split_and_dispatch
    rw [hsq]
  · intro c1 hsq
    rw [hrouter]
    unfold llm_split_and_dispatch
    rw [hsq]
    rfl

/-- The all-failing model oracle. -/
def oErr : LLMOracle := ⟨fun _ => .error "model down", fun _ => .error "model down"⟩

/-- A complex non-greeting single turn with no plan state. -/
def stateC7 : CustomState :=
  ⟨[Msg.human (Content.str "what is the capital of france")], "", [], [], false⟩

/-- C7 (counterexample): when the split model call raises, the router does
not recover to a `research` route — the exception escapes the router
(`llm_split_query` and the split section have no handler), refuting
"never surfaced to the caller". -/
theorem C7_counterexample :
    router oErr 0 emptyQueryCache stateC7 = .error "model down" := rfl

/-- C7 witness: the amended theorem at the concrete turn, once with the
failing model (error propagates) and once with a model whose answer parses
to nothing (research fallback). -/
theorem C7_decomposition_fallback_witness :
    router oErr 0 emptyQueryCache stateC7 = .error "model down" ∧
      router oFixed 0 emptyQueryCache stateC7 =
        .ok ({ stateC7 with route := "research", pending_routes := [] },
             ⟨[⟨"what is the capital of france", [], 0⟩], [], 0⟩) :=
  ⟨(C7_decomposition_fallback oErr 0 emptyQueryCache stateC7 rfl rfl rfl rfl).1
      "model down" rfl,
   (C7_decomposition_fallback oFixed 0 emptyQueryCache stateC7 rfl rfl rfl rfl).2
      ⟨[⟨"what is the capital of france", [], 0⟩], [], 0⟩ rfl⟩

/-- A concrete 7-message history — longer than the 6 messages the claim
names as the trigger. -/
def messages7 : List Msg :=
  [Msg.human (Content.str "m1"), Msg.ai (Content.str "m2") [],
   Msg.human (Content.str "m3"), Msg.ai (Content.str "m4") [],
   Msg.human (Content.str "m5"), Msg.ai (Content.str "m6") [],
   Msg.human (Content.str "m7")]

/-- C8 (evaluation at the divergence): a 7-message history exceeds 6, yet
the streaming pipeline's guard (`len > MAX_MESSAGES` with
`MAX_MESSAGES = 10`) does not trigger summarization; and when
`summarize_messages` itself runs it returns the `(last-3, summary)` pair —
the summary string is returned beside the messages, never prepended as a
synthetic entry — keeping the last 3 verbatim, and on model failure the
last 3 with an empty summary.  (On histories where the guard does fire, the
service call passes two arguments to the one-parameter `summarize_messages`,
a `TypeError`.) -/
theorem C8_summarization_divergence :
    messages7.length = 7 ∧
      service_triggers_summarization messages7 = false ∧
      summarize_messages (fun _ => .ok "SUMMARY") messages7 = (messages7.drop 4, "SUMMARY") ∧
      (summarize_messages (fun _ => .ok "SUMMARY") messages7).1.length = 3 ∧
      summarize_messages (fun _ => .error "llm failure") messages7 = (messages7.drop 4, "") :=
  ⟨rfl, rfl, rfl, rfl, rfl⟩

/-- A frame the graph-streaming loop itself can emit. -/
def Frame.isBody : Frame → Bool
  | .token _ _ => true
  | .tool_call _ _ => true
  | _ => false

theorem tokenFrames_body (text node : String) : ∀ f ∈ tokenFrames text node, f.isBody = true := by
  intro f hf
  unfold tokenFrames at hf
  obtain ⟨chunk, -, rfl⟩ := List.mem_map.mp hf
  rfl

theorem updateFrames_body (nu : NodeUpdate) : ∀ f ∈ updateFrames nu, f.isBody = true := by
  intro f hf
  unfold updateFrames at hf
  cases h : nu.upd with
  | none => rw [h] at hf; simp at hf
  | some p =>
    obtain ⟨msgs, answer⟩ := p
    simp only [h] at hf
    cases hl : msgs.getLast? with
    | some latest =>
      simp only [hl] at hf
      rw [List.mem_append] at hf
      rcases hf with hf | hf
      · obtain ⟨tn, -, rfl⟩ := List.mem_map.mp hf
        rfl
      · split at hf
        · exact tokenFrames_body _ _ f hf
        · simp at hf
    | none =>
      simp only [hl] at hf
      split at hf
      · exact tokenFrames_body _ _ f hf
      · simp at hf

theorem chunksFrames_body (chunks : List (List NodeUpdate)) :
    ∀ f ∈ chunksFrames chunks, f.isBody = true := by
  intro f hf
  unfold chunksFrames at hf
  obtain ⟨ch, -, hf2⟩ := List.mem_flatMap.mp hf
  obtain ⟨nu, -, hf3⟩ := List.mem_flatMap.mp hf2
  exact updateFrames_body nu f hf3

theorem filter_eq_nil_of_body (p : Frame → Bool) (l : List Frame)
    (hbody : ∀ f ∈ l, Frame.isBody f = true)
    (hp : ∀ f, Frame.isBody f = true → p f = false) : l.filter p = [] := by
  rw [List.filter_eq_nil_iff]
  intro a ha
  simp [hp a (hbody a ha)]

theorem getLast?_append_singleton {α : Type} (l : List α) (a : α) :
    (l ++ [a]).getLast? = some a := by
  rw [List.getLast?_append_of_ne_nil l (by simp)]
  rfl

theorem body_not_metadata : ∀ f : Frame, Frame.isBody f = true → Frame.isMetadata f = false := by
  intro f h
  cases f <;> first | rfl | exact absurd h (by simp [Frame.isBody])

theorem body_not_error : ∀ f : Frame, Frame.isBody f = true → Frame.isError f = false := by
  intro f h
  cases f <;> first | rfl | exact absurd h (by simp [Frame.isBody])

theorem body_not_done : ∀ f : Frame, Frame.isBody f = true → Frame.isDone f = false := by
  intro f h
  cases f <;> first | rfl | exact absurd h (by simp [Frame.isBody])

/-- C9: every frame stream of a chat turn begins with exactly one metadata
frame carrying the thread and session ids, contains exactly one error frame
when (and only when) an exception interrupts the streaming loop and none
otherwise, and ends with the terminal `[DONE]` sentinel — exactly one — on
both the success and the error path. -/
theorem C9_stream_protocol (thread_id user_id message : String)
    (chunks : List (List NodeUpdate)) (failure : Option (Nat × String)) :
    (execute_agent_frames thread_id user_id message chunks failure).head? =
        some (Frame.metadata thread_id user_id) ∧
      ((execute_agent_frames thread_id user_id message chunks failure).filter
          Frame.isMetadata).length = 1 ∧
      ((execute_agent_frames thread_id user_id message chunks failure).filter
          Frame.isError).length = (match failure with | some _ => 1 | none => 0) ∧
      (execute_agent_frames thread_id user_id message chunks failure).getLast? =
        some Frame.done ∧
      ((execute_agent_frames thread_id user_id message chunks failure).filter
          Frame.isDone).length = 1 := by
  have hbody := chunksFrames_body chunks
  have hMeta : (chunksFrames chunks).filter Frame.isMetadata = [] :=
    filter_eq_nil_of_body _ _ hbody body_not_metadata
  have hErr : (chunksFrames chunks).filter Frame.isError = [] :=
    filter_eq_nil_of_body _ _ hbody body_not_error
  have hDone : (chunksFrames chunks).filter Frame.isDone = [] :=
    filter_eq_nil_of_body _ _ hbody body_not_done
  cases failure with
  | none =>
    refine ⟨rfl, ?_, ?_, ?_, ?_⟩
    · unfold execute_agent_frames
      simp [List.filter_append, hMeta, Frame.isMetadata]
    · unfold execute_agent_frames
      simp [List.filter_append, hErr, Frame.isError]
    · unfold execute_agent_frames
      exact getLast?_append_singleton _ _
    · unfold execute_agent_frames
      simp [List.filter_append, hDone, Frame.isDone]
  | some ke =>
    obtain ⟨k, e⟩ := ke
    have hbodyTake : ∀ f ∈ (chunksFrames chunks).take k, Frame.isBody f = true :=
      fun f hf => hbody f (List.take_subset k _ hf)
    have hMetaT : ((chunksFrames chunks).take k).filter Frame.isMetadata = [] :=
      filter_eq_nil_of_body _ _ hbodyTake body_not_metadata
    have hErrT : ((chunksFrames chunks).take k).filter Frame.isError = [] :=
      filter_eq_nil_of_body _ _ hbodyTake body_not_error
    have hDoneT : ((chunksFrames chunks).take k).filter Frame.isDone = [] :=
      filter_eq_nil_of_body _ _ hbodyTake body_not_done
    refine ⟨rfl, ?_, ?_, ?_, ?_⟩
    · unfold execute_agent_frames
      simp [List.filter_append, hMetaT, Frame.isMetadata, Frame.isError]
    · unfold execute_agent_frames
      simp [List.filter_append, hErrT, Frame.isError]
    · unfold execute_agent_frames
      exact getLast?_append_singleton _ _
    · unfold execute_agent_frames
      simp [List.filter_append, hDoneT, Frame.isDone, Frame.isError]

/-- C10: `ThreadRepository.save` is idempotent on the key
`(session_id, thread_id)` — when a row with that key is already stored, a
second save with any label and any fresh primary key leaves the table
unchanged (INSERT OR IGNORE hits the UNIQUE(session_id, thread_id)
constraint) and returns the originally stored row, its primary key, label
and creation timestamp intact. -/
theorem C10_save_idempotent (tbl : List ThreadRow) (now : String)
    (session_id thread_id : String) (thread_label : Option String) (id : String)
    (r : ThreadRow)
    (h : select_by_session_and_thread tbl session_id thread_id = some r) :
    ThreadRepository.save tbl now session_id thread_id thread_label id = (tbl, .row r) := by
  have hmem : r ∈ tbl := by
    unfold select_by_session_and_thread at h
    exact List.mem_of_find?_eq_some h
  have hpred : (r.session_id == session_id && r.thread_id == thread_id) = true := by
    unfold select_by_session_and_thread at h
    have hp := List.find?_some h
    simpa using hp
  have hviol :
      violatesConstraint tbl ⟨id, thread_id, thread_label, session_id, now⟩ = true := by
    unfold violatesConstraint
    rw [List.any_eq_true]
    refine ⟨r, hmem, ?_⟩
    rw [Bool.and_eq_true] at hpred
    simp only [hpred.1, hpred.2, Bool.and_self, Bool.or_true]
  unfold ThreadRepository.save insert_or_ignore
  rw [hviol]
  simp only [if_true, h]

/-- C10 witness: on a table already holding `("s1", "t1")`, saving again with
a different label and primary key changes nothing and returns the original
row. -/
theorem C10_save_idempotent_witness :
    ThreadRepository.save [⟨"pk1", "t1", some "Label A", "s1", "2024-01-01"⟩]
        "2024-02-02" "s1" "t1" (some "Label B") "pk2" =
      ([⟨"pk1", "t1", some "Label A", "s1", "2024-01-01"⟩],
       .row ⟨"pk1", "t1", some "Label A", "s1", "2024-01-01"⟩) :=
  C10_save_idempotent [⟨"pk1", "t1", some "Label A", "s1", "2024-01-01"⟩]
    "2024-02-02" "s1" "t1" (some "Label B") "pk2"
    ⟨"pk1", "t1", some "Label A", "s1", "2024-01-01"⟩ rfl
